import Mathlib

/-!
Shallow embedding of the fractional-share investment engine of the
Hakerch real-estate platform.

The definitions below are translated from
`src/api/src/controllers/investment.controller.js` (the order, inventory
and journal logic), `src/api/src/controllers/property.controller.js`
(listing creation) and the table declarations in `src/sqlscript350.txt`.
JavaScript strings stay `String`, integer share counts become `Int`
(request validation enforces `isInt({ min: 1 })`), monetary values become
`Rat`, and the Supabase tables become lists inside a `DB` record.  Fields
that no claim touches (timestamps, notes, payment method ids, metadata)
are elided.  The mock payment collaborator (`processPayment`,
`processRefund`) always resolves `true` in the source and is embedded as
an unconditional success.
-/

namespace Hakerch

/-- A row of the `properties` table as used by the controllers:
`property.controller.js` inserts `total_shares`, `available_shares`
(initially equal to `total_shares`) and `price_per_share`;
`investment.controller.js` reads `id, status, available_shares,
price_per_share`. -/
structure Property where
  id : Nat
  status : String
  total_shares : Int
  available_shares : Int
  price_per_share : Rat
deriving DecidableEq, Repr

/-- A row of the `investments` table (an order).  `payment_status` is not
set at insert time in the source, which we model as `none`; the
completion update sets it to `some "succeeded"` and the refund path to
`some "refunded"`. -/
structure Investment where
  id : Nat
  user_id : Nat
  property_id : Nat
  shares : Int
  amount : Rat
  status : String
  payment_status : Option String
deriving DecidableEq, Repr

/-- A row of the `transactions` table (the journal).  `createTransaction`
in the source inserts `user_id, type, amount, status, reference_id,
description, metadata` and never writes the `blockchain_hash` column that
`src/sqlscript350.txt` declares on `transactions`; the column therefore
stays `none`. -/
structure Transaction where
  user_id : Nat
  txn_type : String
  amount : Rat
  status : String
  reference_id : Nat
  blockchain_hash : Option String
deriving DecidableEq, Repr

/-- A row of the `investment_history` table written by
`updateInvestmentStatus`. -/
structure HistoryEntry where
  investment_id : Nat
  status : String
deriving DecidableEq, Repr

/-- A row of the `failed_investments` table written by the outer catch of
`createInvestment`. -/
structure FailedInvestment where
  user_id : Nat
  property_id : Nat
  shares : Int
  error : String
deriving DecidableEq, Repr

/-- The datastore visible to the investment controller. -/
structure DB where
  properties : List Property
  investments : List Investment
  transactions : List Transaction
  investment_history : List HistoryEntry
  failed_investments : List FailedInvestment
deriving DecidableEq, Repr

/-- `supabase.from('properties').select(...).eq('id', propertyId).single()`. -/
def findProperty (db : DB) (propertyId : Nat) : Option Property :=
  db.properties.find? (fun p => p.id == propertyId)

/-- `supabase.from('investments').select('*').eq('id', id).single()`
(the admin path, which does not filter by user). -/
def findInvestment (db : DB) (id : Nat) : Option Investment :=
  db.investments.find? (fun i => i.id == id)

/-- `supabase.from('investments').select('*').eq('id', id)
.eq('user_id', userId).single()` (the user-facing paths). -/
def findUserInvestment (db : DB) (userId id : Nat) : Option Investment :=
  db.investments.find? (fun i => i.id == id && i.user_id == userId)

/-- The helper `createTransaction` of `investment.controller.js`: append a
row to `transactions`.  No hash of any kind is computed; the
`blockchain_hash` column declared in `src/sqlscript350.txt` is left
unwritten (`none`). -/
def createTransaction (db : DB) (userId : Nat) (txnType : String)
    (amount : Rat) (status : String) (referenceId : Nat) : DB :=
  { db with transactions :=
      db.transactions ++ [⟨userId, txnType, amount, status, referenceId, none⟩] }

/-- Result of `createInvestment`, mirroring the HTTP responses of the
source: 400 on validation failure, inactive property or insufficient
shares; 500 (after the catch-all) on a thrown error; 201 with the updated
investment on success. -/
inductive CreateResult where
  | validationError
  | notActive
  | notEnoughShares (available : Int)
  | created (inv : Investment)
  | serverError (msg : String)
deriving DecidableEq, Repr

/-- `createInvestment` of `investment.controller.js`.  The route
validation (`src/unnamed/part_003`) requires `shares` to be an integer
`≥ 1`; a failing validation returns before any datastore access.  The
fresh UUID for the investment is passed in as `invId`.  On the
property-not-found throw, the outer catch inserts a `failed_investments`
row.  The payment mock always succeeds, after which the investment is
marked completed, `available_shares` is written back as the previously
FETCHED value minus `shares` (a read-then-write, lines 50 and 124-130 of
the source), and a journal row is appended. -/
def createInvestment (db : DB) (userId propertyId invId : Nat)
    (shares : Int) : CreateResult × DB :=
  if shares < 1 then (.validationError, db)
  else
    match findProperty db propertyId with
    | none =>
        (.serverError "Property not found",
          { db with failed_investments := db.failed_investments ++
              [⟨userId, propertyId, shares, "Property not found"⟩] })
    | some property =>
        if property.status ≠ "active" then (.notActive, db)
        else if shares > property.available_shares then
          (.notEnoughShares property.available_shares, db)
        else
          let amount : Rat := (shares : Rat) * property.price_per_share
          let pending : Investment :=
            ⟨invId, userId, propertyId, shares, amount, "pending", none⟩
          let db1 : DB := { db with investments := db.investments ++ [pending] }
          let completed : Investment :=
            { pending with status := "completed", payment_status := some "succeeded" }
          let invs2 :=
            db1.investments.map (fun i => if i.id == invId then completed else i)
          let db2 : DB := { db1 with investments := invs2 }
          let props3 :=
            db2.properties.map (fun p => if p.id == propertyId then
              { p with available_shares := property.available_shares - shares }
            else p)
          let db3 : DB := { db2 with properties := props3 }
          let db4 := createTransaction db3 userId "investment" (-amount)
              "completed" invId
          (.created completed, db4)

/-- Result of `cancelInvestment`: 400 when the fetched status is not
`pending`, 500 after a thrown error, 200 with the updated investment on
success. -/
inductive CancelResult where
  | ok (inv : Investment)
  | notPending
  | serverError (msg : String)
deriving DecidableEq, Repr

/-- `cancelInvestment` of `investment.controller.js`.  Only a `pending`
investment passes the guard; the status is set to `cancelled`; a refund
is processed (and `payment_status` set to `refunded`) only when the
fetched `payment_status` is `succeeded`; a `refund` journal row for the
full amount is appended UNCONDITIONALLY; finally the restock branch is
guarded on the fetched status being `completed`, which the earlier guard
has already excluded. -/
def cancelInvestment (db : DB) (userId id : Nat) : CancelResult × DB :=
  match findUserInvestment db userId id with
  | none => (.serverError "Investment not found", db)
  | some investment =>
      if investment.status ≠ "pending" then (.notPending, db)
      else
        let updatedInvestment := { investment with status := "cancelled" }
        let invs1 :=
          db.investments.map (fun i => if i.id == id then updatedInvestment else i)
        let db1 : DB := { db with investments := invs1 }
        let db2 : DB :=
          if investment.payment_status = some "succeeded" then
            let invs2 :=
              db1.investments.map (fun i => if i.id == id then
                { i with payment_status := some "refunded" } else i)
            { db1 with investments := invs2 }
          else db1
        let db3 := createTransaction db2 userId "refund" investment.amount
            "completed" id
        let db4 : DB :=
          if investment.status = "completed" then
            match findProperty db3 investment.property_id with
            | some property =>
                let props4 :=
                  db3.properties.map (fun p => if p.id == investment.property_id then
                    { p with available_shares := property.available_shares + investment.shares }
                  else p)
                { db3 with properties := props4 }
            | none => db3
          else db3
        (.ok updatedInvestment, db4)

/-- The helper `isValidStatusTransition` of `investment.controller.js`:
`validTransitions[currentStatus]?.includes(newStatus) || false`. -/
def isValidStatusTransition (currentStatus newStatus : String) : Bool :=
  if currentStatus = "pending" then
    ["completed", "failed", "cancelled"].contains newStatus
  else if currentStatus = "completed" then
    ["cancelled"].contains newStatus
  else if currentStatus = "failed" then
    ["pending"].contains newStatus
  else if currentStatus = "cancelled" then
    ([] : List String).contains newStatus
  else false

/-- Result of the admin `updateInvestmentStatus`. -/
inductive UpdateResult where
  | ok (inv : Investment)
  | notFound
  | invalidTransition (fromStatus toStatus : String)
deriving DecidableEq, Repr

/-- `updateInvestmentStatus` of `investment.controller.js` (admin).  An
invalid transition returns before any write.  Otherwise the status is
updated, a history row appended, and — when the new status is `completed`
and the old one was not — `available_shares` is decremented by the
investment's shares with NO availability check (lines 585-600). -/
def updateInvestmentStatus (db : DB) (id : Nat) (status : String) :
    UpdateResult × DB :=
  match findInvestment db id with
  | none => (.notFound, db)
  | some investment =>
      if ¬ isValidStatusTransition investment.status status then
        (.invalidTransition investment.status status, db)
      else
        let updatedInvestment := { investment with status := status }
        let invs1 :=
          db.investments.map (fun i => if i.id == id then updatedInvestment else i)
        let db1 : DB := { db with investments := invs1 }
        let db2 : DB :=
          { db1 with investment_history := db1.investment_history ++ [⟨id, status⟩] }
        let db3 : DB :=
          if status = "completed" ∧ investment.status ≠ "completed" then
            match findProperty db2 investment.property_id with
            | some property =>
                let props3 :=
                  db2.properties.map (fun p => if p.id == investment.property_id then
                    { p with available_shares := property.available_shares - investment.shares }
                  else p)
                { db2 with properties := props3 }
            | none => db2
          else db2
        (.ok updatedInvestment, db3)

/-- One in-flight `createInvestment` request in the concurrency model for
the shared `available_shares` counter.  `readVal` holds the value fetched
at lines 32-36 of the source once the fetch has happened. -/
structure BuyRequest where
  shares : Int
  readVal : Option Int
  completed : Bool
  failed : Bool
deriving DecidableEq, Repr

/-- The two shared-state accesses a `createInvestment` handler performs on
`available_shares`: `fetch i` is the select of lines 32-36 together with
the guard `shares > property.available_shares` of line 50 (both use only
the fetched value, with no further shared access between them), and
`store i` is the write-back `available_shares - shares` of lines 124-130,
computed from the value fetched earlier, not from the current row. -/
inductive Act where
  | fetch (i : Nat)
  | store (i : Nat)
deriving DecidableEq, Repr

/-- Shared state for N concurrent buy requests against one listing. -/
structure ConcState where
  available_shares : Int
  requests : List BuyRequest
deriving DecidableEq, Repr

/-- One atomic access of one handler, as scheduled by the interleaving. -/
def concStep (s : ConcState) (a : Act) : ConcState :=
  match a with
  | .fetch i =>
      match s.requests[i]? with
      | some r =>
          if r.readVal = none ∧ ¬ r.completed ∧ ¬ r.failed then
            if r.shares > s.available_shares then
              { s with requests := s.requests.set i { r with failed := true } }
            else
              { s with requests :=
                  s.requests.set i { r with readVal := some s.available_shares } }
          else s
      | none => s
  | .store i =>
      match s.requests[i]? with
      | some r =>
          match r.readVal with
          | some v =>
              if ¬ r.completed ∧ ¬ r.failed then
                { available_shares := v - r.shares,
                  requests := s.requests.set i { r with completed := true } }
              else s
          | none => s
      | none => s

/-- Run a whole interleaving (a schedule of atomic accesses). -/
def runSchedule (s : ConcState) (sched : List Act) : ConcState :=
  sched.foldl concStep s

/-- Total shares of the requests that completed. -/
def completedShares (s : ConcState) : Int :=
  (s.requests.filter (fun r => r.completed)).foldl (fun acc r => acc + r.shares) 0

/-- A row of the `holdings` table declared in `src/sqlscript350.txt`:
unique per `(user_id, listing_id)`, with non-negative `share_quantity`
and `average_cost_basis_usd`. -/
structure Holding where
  user_id : Nat
  listing_id : Nat
  share_quantity : Rat
  average_cost_basis : Rat
deriving DecidableEq, Repr

/-- Lookup of the unique holding of a `(user, listing)` pair. -/
def findHolding (hs : List Holding) (user listing : Nat) : Option Holding :=
  hs.find? (fun h => h.user_id == user && h.listing_id == listing)

/-- Modelled from the spec: `HoldingsAggregator.applyBuy` is absent from
the sources — no code in `src/` ever writes the `holdings` table, which
`src/sqlscript350.txt` only declares.  Following §4.4 of the spec: if no
holding exists, create one with `share_quantity = shares` and
`average_cost_basis = price`; otherwise set `average_cost_basis` to
`(oldQty·oldAvg + shares·price) / (oldQty + shares)` and increase
`share_quantity` by `shares`. -/
def applyBuy (hs : List Holding) (user listing : Nat) (shares price : Rat) :
    List Holding :=
  match findHolding hs user listing with
  | none => hs ++ [⟨user, listing, shares, price⟩]
  | some _ =>
      hs.map (fun h =>
        if h.user_id == user && h.listing_id == listing then
          { h with
            share_quantity := h.share_quantity + shares,
            average_cost_basis :=
              (h.share_quantity * h.average_cost_basis + shares * price) /
                (h.share_quantity + shares) }
        else h)

/-- Helper: mapping a key-preserving update over a list moves `find?`
with the key predicate onto the updated element. -/
theorem find?_map_keyed {α : Type} (p : α → Bool) (g : α → α)
    (hg : ∀ x, p (g x) = p x) :
    ∀ (l : List α) (h : α), l.find? p = some h →
      (l.map (fun x => if p x then g x else x)).find? p = some (g h) := by
  intro l
  induction l with
  | nil =>
      intro h hf
      simp at hf
  | cons a t ih =>
      intro h hf
      by_cases hpa : p a = true
      · rw [List.find?_cons_of_pos _ hpa] at hf
        obtain rfl : a = h := by injection hf
        simp only [List.map_cons, if_pos hpa]
        exact List.find?_cons_of_pos _ (by rw [hg]; exact hpa)
      · rw [List.find?_cons_of_neg _ (by simp [hpa])] at hf
        simp only [List.map_cons, if_neg hpa]
        rw [List.find?_cons_of_neg _ (by simp [hpa])]
        exact ih h hf

/-! Concrete fixtures used by the theorems below. -/

/-- The Scenario A listing: 1000 total shares, all available, price 2.00. -/
def propScenarioA : Property := ⟨1, "active", 1000, 1000, 2⟩

/-- A datastore holding only the Scenario A listing. -/
def dbScenarioA : DB := ⟨[propScenarioA], [], [], [], []⟩

/-- The order the Scenario A buy produces: 500 shares, amount 1000.00,
completed and paid. -/
def invScenarioA : Investment := ⟨7, 9, 1, 500, 1000, "completed", some "succeeded"⟩

/-- The datastore after the Scenario A buy: 500 shares left, the
completed order, and its debit journal row. -/
def dbAfterA : DB :=
  ⟨[⟨1, "active", 1000, 500, 2⟩], [invScenarioA],
    [⟨9, "investment", -1000, "completed", 7, none⟩], [], []⟩

/-- Two concurrent 600-share buy requests against 1000 available shares. -/
def concTwo600 : ConcState :=
  ⟨1000, [⟨600, none, false, false⟩, ⟨600, none, false, false⟩]⟩

/-- The interleaving in which both handlers fetch the listing before
either writes back: both validations pass against the stale 1000. -/
def raceSchedule : List Act := [.fetch 0, .fetch 1, .store 0, .store 1]

/-- A sold-out listing together with a pending 500-share order on it. -/
def dbSoldOut : DB :=
  ⟨[⟨1, "active", 1000, 0, 2⟩], [⟨1, 9, 1, 500, 1000, "pending", none⟩],
    [], [], []⟩

/-- A datastore holding a COMPLETED (paid) 500-share order on a listing
with 500 shares left. -/
def dbCompletedOrder : DB :=
  ⟨[⟨1, "active", 1000, 500, 2⟩],
    [⟨1, 9, 1, 500, 1000, "completed", some "succeeded"⟩], [], [], []⟩

/-- A CANCELLED 500-share order. -/
def cancelledInv : Investment := ⟨1, 9, 1, 500, 1000, "cancelled", none⟩

/-- A datastore holding only the cancelled order `cancelledInv`. -/
def dbCancelledOrder : DB :=
  ⟨[⟨1, "active", 1000, 1000, 2⟩], [cancelledInv], [], [], []⟩

/-- A PENDING, never-paid 500-share order. -/
def pendingInv : Investment := ⟨1, 9, 1, 500, 1000, "pending", none⟩

/-- A datastore holding only the pending order `pendingInv`. -/
def dbPendingOrder : DB := ⟨[propScenarioA], [pendingInv], [], [], []⟩

/-- C1: the claim says N concurrent buy requests whose combined shares
exceed `available_shares` complete only up to `available_shares`, the
rest failing with InsufficientInventory.  The source's check (line 50)
and write-back (lines 124-130) use a separately fetched value, so under
the fetch-fetch-store-store interleaving two 600-share requests against
1000 available shares BOTH complete: 1200 shares are sold, exceeding the
original 1000, and the counter ends at 400 instead of failing one
request.  This refutes the claim on the code as written. -/
theorem oversellUnderRace :
    completedShares (runSchedule concTwo600 raceSchedule) = 1200 ∧
    1000 < completedShares (runSchedule concTwo600 raceSchedule) ∧
    (runSchedule concTwo600 raceSchedule).available_shares = 400 ∧
    (runSchedule concTwo600 raceSchedule).requests.all
      (fun r => r.completed && !r.failed) = true := by
  decide

/-- C2: the claim says `0 ≤ available_shares ≤ total_shares` after every
committed operation.  The admin `updateInvestmentStatus` decrements
`available_shares` by the order's shares with no availability check, so
completing a pending 500-share order on a sold-out listing (0 available)
drives `available_shares` to -500. -/
theorem adminCompletionNegativeShares :
    (updateInvestmentStatus dbSoldOut 1 "completed").2.properties.map
      (fun p => p.available_shares) = [-500] ∧ (-500 : Int) < 0 := by
  decide

/-- C5: the claim says every stored journal hash equals
digest(previous_hash ∥ canonical-encoding-of-entry) and that
`verifyJournal` reports tampering.  The source's `createTransaction`
computes no hash at all: every appended `transactions` row leaves the
`blockchain_hash` column of `src/sqlscript350.txt` unwritten, and no
`verifyJournal` (or any hash-recomputation routine) exists anywhere in
the repository. -/
theorem journalAppendsNoHash (db : DB) (userId : Nat) (txnType : String)
    (amount : Rat) (status : String) (referenceId : Nat) :
    (createTransaction db userId txnType amount status referenceId).transactions =
      db.transactions ++ [⟨userId, txnType, amount, status, referenceId, none⟩] ∧
    (⟨userId, txnType, amount, status, referenceId, none⟩ :
        Transaction).blockchain_hash = none :=
  ⟨rfl, rfl⟩

/-- C7: the claim says a COMPLETED order can be cancelled with a
compensating refund, restock and reversing entry.  `cancelInvestment`
rejects every non-pending order with "Only pending investments can be
cancelled" and changes nothing; its restock branch (guarded on the
fetched status being completed, line 412) is unreachable behind the
pending-only guard of line 350. -/
theorem completedOrderCancelRejected :
    cancelInvestment dbCompletedOrder 9 1 = (.notPending, dbCompletedOrder) := by
  decide

/-- C3: status changes are permitted exactly along
pending → completed | failed | cancelled, completed → cancelled and
failed → pending, with cancelled terminal; a request for any other
transition is rejected as an invalid transition and leaves the datastore
untouched. -/
theorem statusTransitionTable :
    (∀ c n : String, isValidStatusTransition c n = true ↔
      ((c = "pending" ∧ (n = "completed" ∨ n = "failed" ∨ n = "cancelled")) ∨
       (c = "completed" ∧ n = "cancelled") ∨
       (c = "failed" ∧ n = "pending"))) ∧
    (∀ (db : DB) (id : Nat) (status : String) (inv : Investment),
      findInvestment db id = some inv →
      isValidStatusTransition inv.status status = false →
      updateInvestmentStatus db id status =
        (.invalidTransition inv.status status, db)) := by
  constructor
  · intro c n
    unfold isValidStatusTransition
    split_ifs with h1 h2 h3 h4 <;> simp_all [List.contains]
  · intro db id status inv hfind hbad
    simp [updateInvestmentStatus, hfind, hbad]

/-- Witness for C3: the cancelled order of `dbCancelledOrder` cannot be
moved back to completed, and the attempt changes nothing. -/
theorem statusTransitionTable_witness :
    updateInvestmentStatus dbCancelledOrder 1 "completed" =
      (.invalidTransition "cancelled" "completed", dbCancelledOrder) := by
  have h := statusTransitionTable.2 dbCancelledOrder 1 "completed" cancelledInv
    (by decide) (by decide)
  exact h

/-- C4: a submission that fails input validation (shares below the
`isInt({ min: 1 })` bound of the route validator) or requests more shares
than the property has available returns an error with the datastore
completely unchanged: no investment row, no inventory change, no journal
row, no failed-investment row. -/
theorem createRejectionsZeroMutation (db : DB) (userId propertyId invId : Nat)
    (shares : Int) (property : Property) :
    (shares < 1 →
      createInvestment db userId propertyId invId shares =
        (.validationError, db)) ∧
    (findProperty db propertyId = some property →
      property.status = "active" → 1 ≤ shares →
      property.available_shares < shares →
      createInvestment db userId propertyId invId shares =
        (.notEnoughShares property.available_shares, db)) := by
  constructor
  · intro h
    simp [createInvestment, h]
  · intro hfind hact hge hlt
    have h1 : ¬ shares < 1 := by omega
    simp [createInvestment, hfind, hact, h1, hlt]

/-- Witness for C4: a zero-share request and a 2000-share request against
the 1000 available shares of Scenario A both bounce with no mutation. -/
theorem createRejectionsZeroMutation_witness :
    createInvestment dbScenarioA 9 1 7 0 = (.validationError, dbScenarioA) ∧
    createInvestment dbScenarioA 9 1 7 2000 =
      (.notEnoughShares 1000, dbScenarioA) := by
  constructor
  · exact (createRejectionsZeroMutation dbScenarioA 9 1 7 0 propScenarioA).1
      (by decide)
  · exact (createRejectionsZeroMutation dbScenarioA 9 1 7 2000 propScenarioA).2
      (by decide) (by decide) (by decide) (by decide)

/-- C6: `applyBuy` (modelled from the spec, the aggregator being absent
from the sources) creates a fresh holding with `share_quantity = shares`
and `average_cost_basis = price` when none exists, otherwise moves the
cost basis to the weighted average and adds `shares` to the quantity; on
Scenario A a 500-share buy at 2.00 into an empty book yields quantity 500
at basis 2.00. -/
theorem applyBuyWeightedAverage :
    (∀ (hs : List Holding) (user listing : Nat) (shares price : Rat),
      findHolding hs user listing = none →
      findHolding (applyBuy hs user listing shares price) user listing =
        some ⟨user, listing, shares, price⟩) ∧
    (∀ (hs : List Holding) (user listing : Nat) (shares price : Rat)
      (h : Holding),
      findHolding hs user listing = some h →
      findHolding (applyBuy hs user listing shares price) user listing =
        some { h with
          share_quantity := h.share_quantity + shares,
          average_cost_basis :=
            (h.share_quantity * h.average_cost_basis + shares * price) /
              (h.share_quantity + shares) }) ∧
    applyBuy [] 9 1 500 2 = [⟨9, 1, 500, 2⟩] := by
  refine ⟨?_, ?_, by decide⟩
  · intro hs user listing shares price hnone
    unfold applyBuy
    rw [hnone]
    unfold findHolding at hnone ⊢
    rw [List.find?_append, hnone]
    simp
  · intro hs user listing shares price h hsome
    unfold applyBuy
    rw [hsome]
    unfold findHolding at hsome ⊢
    exact find?_map_keyed
      (fun h0 => h0.user_id == user && h0.listing_id == listing)
      (fun h0 => { h0 with
        share_quantity := h0.share_quantity + shares,
        average_cost_basis :=
          (h0.share_quantity * h0.average_cost_basis + shares * price) /
            (h0.share_quantity + shares) })
      (fun x => rfl) hs h hsome

/-- Witness for C6: buying 500 more shares at 4.00 on top of the Scenario
A holding (500 shares at 2.00) gives 1000 shares at weighted basis 3.00;
the fresh-holding branch reproduces Scenario A itself. -/
theorem applyBuyWeightedAverage_witness :
    findHolding (applyBuy [] 9 1 500 2) 9 1 = some ⟨9, 1, 500, 2⟩ ∧
    findHolding (applyBuy [⟨9, 1, 500, 2⟩] 9 1 500 4) 9 1 =
      some ⟨9, 1, 1000, 3⟩ := by
  constructor
  · exact applyBuyWeightedAverage.1 [] 9 1 500 2 (by decide)
  · have h := applyBuyWeightedAverage.2.1 [⟨9, 1, 500, 2⟩] 9 1 500 4
      ⟨9, 1, 500, 2⟩ (by decide)
    rw [h]
    norm_num

/-- C8 counterexample: invoking cancellation on the already-CANCELLED
order of `dbCancelledOrder` does not return the order's terminal state —
it returns the "Only pending investments can be cancelled" error. -/
theorem cancelCancelledReturnsError :
    (cancelInvestment dbCancelledOrder 9 1).1 ≠ CancelResult.ok cancelledInv ∧
    (cancelInvestment dbCancelledOrder 9 1).1 = CancelResult.notPending := by
  decide

/-- C8 amended: cancelling an already-cancelled order performs no
mutation whatsoever — no refund, no restock, no journal entry, the order
stays CANCELLED — but the call is rejected with an error response rather
than returning the terminal state. -/
theorem cancelCancelledNoMutation (db : DB) (userId id : Nat)
    (inv : Investment)
    (hfind : findUserInvestment db userId id = some inv)
    (hst : inv.status = "cancelled") :
    cancelInvestment db userId id = (.notPending, db) := by
  simp [cancelInvestment, hfind, hst]

/-- Witness for the amended C8. -/
theorem cancelCancelledNoMutation_witness :
    cancelInvestment dbCancelledOrder 9 1 = (.notPending, dbCancelledOrder) :=
  cancelCancelledNoMutation dbCancelledOrder 9 1 cancelledInv
    (by decide) (by decide)

/-- C9: whenever a submission succeeds, the created order's recorded
amount is its share count times the referenced property's price per
share as fetched at submission time. -/
theorem amountEqualsSharesTimesPrice (db : DB) (userId propertyId invId : Nat)
    (shares : Int) (property : Property) (inv : Investment) (db' : DB)
    (hfind : findProperty db propertyId = some property)
    (hres : createInvestment db userId propertyId invId shares =
      (.created inv, db')) :
    inv.amount = (shares : Rat) * property.price_per_share ∧
    inv.shares = shares := by
  simp only [createInvestment, hfind] at hres
  split_ifs at hres with h1 h2 h3 <;> simp_all
  obtain ⟨rfl, rfl⟩ := hres
  exact ⟨rfl, rfl⟩

/-- Witness for C9: the Scenario A buy of 500 shares at 2.00 records
amount 1000.00. -/
theorem amountEqualsSharesTimesPrice_witness :
    invScenarioA.amount = ((500 : Int) : Rat) * propScenarioA.price_per_share ∧
    invScenarioA.shares = 500 :=
  amountEqualsSharesTimesPrice dbScenarioA 9 1 7 500 propScenarioA invScenarioA
    dbAfterA (by decide)
    (by norm_num [createInvestment, findProperty, dbScenarioA, propScenarioA,
      invScenarioA, createTransaction, dbAfterA])

/-- C10: every successful cancellation (the fetched status being
pending) appends a journal row of type refund for the full investment
amount with status completed, even when `payment_status` is not
succeeded — i.e. even when no payment was ever taken. -/
theorem cancelAlwaysRecordsRefund (db : DB) (userId id : Nat)
    (inv : Investment)
    (hfind : findUserInvestment db userId id = some inv)
    (hst : inv.status = "pending")
    (hpay : inv.payment_status ≠ some "succeeded") :
    ((cancelInvestment db userId id).2).transactions =
      db.transactions ++ [⟨userId, "refund", inv.amount, "completed", id, none⟩] := by
  simp [cancelInvestment, hfind, hst, hpay, createTransaction]

/-- Witness for C10: cancelling the never-paid pending order of
`dbPendingOrder` records a completed 1000.00 refund transaction. -/
theorem cancelAlwaysRecordsRefund_witness :
    ((cancelInvestment dbPendingOrder 9 1).2).transactions =
      [⟨9, "refund", 1000, "completed", 1, none⟩] := by
  have h := cancelAlwaysRecordsRefund dbPendingOrder 9 1 pendingInv
    (by decide) (by decide) (by decide)
  simpa using h

end Hakerch
